import Mathlib

set_option maxRecDepth 8192

namespace GeminiService

/-!
Shallow embedding of `src/geminiService.ts`.

The module wraps an external generative service behind three operations
(`generateInitialScene`, `generateNextScene`, `generateImage`) and a single
piece of decision logic, the response validator `parseJsonResponse`.  The
external network calls are modelled as explicit oracle functions passed to
each wrapper; the JavaScript builtin `JSON.parse` is modelled by the
executable parser `jsonParseL` below; `throw` is modelled by `Except.error`
and the validator null result by `Option.none`.
-/

/-- Model of a JavaScript value produced by `JSON.parse`: null, booleans,
numbers (kept as a decimal mantissa/exponent pair, which is enough to decide
JavaScript truthiness), strings, arrays and objects (ordered field lists with
unique keys, later duplicate keys overwriting the value in place as
`JSON.parse` does). -/
inductive Json where
  | null
  | bool (b : Bool)
  | num (mantissa : Int) (exp10 : Int)
  | str (s : String)
  | arr (elems : List Json)
  | obj (fields : List (String × Json))

/-- JavaScript truthiness of a JSON value: `null`, `false`, `0` and `""` are
falsy; every other JSON value (including empty arrays and objects) is truthy. -/
def truthy : Json → Bool
  | Json.null => false
  | Json.bool b => b
  | Json.num m _ => decide (m ≠ 0)
  | Json.str s => decide (s ≠ "")
  | Json.arr _ => true
  | Json.obj _ => true

/-- Truthiness of a possibly-absent value: a missing property (`undefined`)
is falsy. -/
def truthyOpt : Option Json → Bool
  | some v => truthy v
  | none => false

/-- First-match field lookup in the field list of an object (keys are unique by
construction, see `insertField`). -/
def lookupField : List (String × Json) → String → Option Json
  | [], _ => none
  | (k, v) :: rest, key => if k = key then some v else lookupField rest key

/-- JavaScript property access `v.key`: defined only on objects, `undefined`
(here `none`) on every other value. -/
def getField : Json → String → Option Json
  | Json.obj fields, key => lookupField fields key
  | _, _ => none

/-- Model of `Array.isArray(v)` applied to a possibly-absent property. -/
def isArr : Option Json → Bool
  | some (Json.arr _) => true
  | _ => false

/-- Model of `v.length` for a possibly-absent property, used only after the
`Array.isArray` guard holds. -/
def jlen : Option Json → Nat
  | some (Json.arr xs) => xs.length
  | _ => 0

/-- Insert a key/value pair into the field list of an object the way JavaScript
property assignment does while `JSON.parse` builds an object: an existing key
keeps its position but its value is overwritten; a new key is appended. -/
def insertField : List (String × Json) → String → Json → List (String × Json)
  | [], k, v => [(k, v)]
  | (k', v') :: rest, k, v =>
    if k' = k then (k', v) :: rest else (k', v') :: insertField rest k v

/-- JSON-grammar insignificant whitespace (space, tab, line feed, carriage
return), skipped between tokens by `JSON.parse`. -/
def skipJsonWs : List Char → List Char
  | c :: rest =>
    if c = ' ' ∨ c = '\t' ∨ c = '\n' ∨ c = '\r' then skipJsonWs rest else c :: rest
  | [] => []

/-- Value of a hexadecimal digit, for `\u` escapes. -/
def hexVal (c : Char) : Option Nat :=
  if '0' ≤ c ∧ c ≤ '9' then some (c.toNat - 48)
  else if 'a' ≤ c ∧ c ≤ 'f' then some (c.toNat - 87)
  else if 'A' ≤ c ∧ c ≤ 'F' then some (c.toNat - 55)
  else none

/-- Body of a JSON string literal, after the opening quote: returns the decoded
characters and the input following the closing quote.  Handles the JSON escape
sequences and rejects unescaped control characters, as `JSON.parse` does.
(Astral code points split into surrogate-pair `\u` escapes are out of scope:
each `\u` escape is decoded to one scalar value.) -/
def parseStringChars : List Char → Option (List Char × List Char)
  | [] => none
  | '"' :: rest => some ([], rest)
  | '\\' :: '"' :: r => (parseStringChars r).map (fun p => ('"' :: p.1, p.2))
  | '\\' :: '\\' :: r => (parseStringChars r).map (fun p => ('\\' :: p.1, p.2))
  | '\\' :: '/' :: r => (parseStringChars r).map (fun p => ('/' :: p.1, p.2))
  | '\\' :: 'b' :: r => (parseStringChars r).map (fun p => (Char.ofNat 8 :: p.1, p.2))
  | '\\' :: 'f' :: r => (parseStringChars r).map (fun p => (Char.ofNat 12 :: p.1, p.2))
  | '\\' :: 'n' :: r => (parseStringChars r).map (fun p => ('\n' :: p.1, p.2))
  | '\\' :: 'r' :: r => (parseStringChars r).map (fun p => ('\r' :: p.1, p.2))
  | '\\' :: 't' :: r => (parseStringChars r).map (fun p => ('\t' :: p.1, p.2))
  | '\\' :: 'u' :: a :: b :: c :: d :: r =>
    match hexVal a, hexVal b, hexVal c, hexVal d with
    | some ha, some hb, some hc, some hd =>
      (parseStringChars r).map
        (fun p => (Char.ofNat (((ha * 16 + hb) * 16 + hc) * 16 + hd) :: p.1, p.2))
    | _, _, _, _ => none
  | '\\' :: _ => none
  | c :: rest =>
    if c.toNat < 32 then none
    else (parseStringChars rest).map (fun p => (c :: p.1, p.2))

/-- Greedily take decimal digits from the front of the input, returning their
values and the rest. -/
def takeDigits : List Char → List Nat × List Char
  | c :: rest =>
    if '0' ≤ c ∧ c ≤ '9' then
      let p := takeDigits rest
      ((c.toNat - 48) :: p.1, p.2)
    else ([], c :: rest)
  | [] => ([], [])

/-- Decimal value of a digit list. -/
def digitsToNat (ds : List Nat) : Nat := ds.foldl (fun acc d => acc * 10 + d) 0

/-- Exponent part of a JSON number, after the `e`/`E` marker. -/
def parseExpPart (r : List Char) : Option (Int × List Char) :=
  let signed : Bool × List Char :=
    match r with
    | '+' :: r2 => (false, r2)
    | '-' :: r2 => (true, r2)
    | _ => (false, r)
  let q := takeDigits signed.2
  if q.1 = [] then none
  else
    some ((if signed.1 then -(digitsToNat q.1 : Int) else (digitsToNat q.1 : Int)), q.2)

/-- JSON number literal, per the `json.org` grammar (optional minus sign, no
leading zeros, optional fraction and exponent).  The value is kept as
mantissa times ten to the `exp10`. -/
def parseNumber (input : List Char) : Option (Json × List Char) :=
  let signed : Bool × List Char :=
    match input with
    | '-' :: r => (true, r)
    | _ => (false, input)
  let ip := takeDigits signed.2
  if ip.1 = [] then none
  else if ip.1.head? = some 0 ∧ 2 ≤ ip.1.length then none
  else
    let fp : Option (List Nat × List Char) :=
      match ip.2 with
      | '.' :: r =>
        let q := takeDigits r
        if q.1 = [] then none else some q
      | _ => some ([], ip.2)
    match fp with
    | none => none
    | some (fracDs, rest2) =>
      let ep : Option (Int × List Char) :=
        match rest2 with
        | 'e' :: r => parseExpPart r
        | 'E' :: r => parseExpPart r
        | _ => some (0, rest2)
      match ep with
      | none => none
      | some (exv, rest3) =>
        let mantNat := digitsToNat (ip.1 ++ fracDs)
        let mant : Int := if signed.1 then -(mantNat : Int) else (mantNat : Int)
        some (Json.num mant (exv - (fracDs.length : Int)), rest3)

/-- Parsing mode of the fueled recursive-descent parser: a single value, the
remaining items of an array, or the remaining members of an object. -/
inductive PMode where
  | value
  | arrItems (acc : List Json)
  | objItems (acc : List (String × Json))

/-- Fueled recursive-descent JSON parser (the fuel only bounds nesting of the
mutually recursive entry points; `jsonParseL` supplies more than enough).
Returns the parsed value and the unconsumed input. -/
def parseF : Nat → PMode → List Char → Option (Json × List Char)
  | 0, _, _ => none
  | fuel + 1, PMode.value, input =>
    match input with
    | 'n' :: 'u' :: 'l' :: 'l' :: rest => some (Json.null, rest)
    | 't' :: 'r' :: 'u' :: 'e' :: rest => some (Json.bool true, rest)
    | 'f' :: 'a' :: 'l' :: 's' :: 'e' :: rest => some (Json.bool false, rest)
    | '"' :: rest =>
      match parseStringChars rest with
      | some (cs, rest2) => some (Json.str (String.mk cs), rest2)
      | none => none
    | '[' :: rest =>
      match skipJsonWs rest with
      | ']' :: rest2 => some (Json.arr [], rest2)
      | other => parseF fuel (PMode.arrItems []) other
    | '{' :: rest =>
      match skipJsonWs rest with
      | '}' :: rest2 => some (Json.obj [], rest2)
      | other => parseF fuel (PMode.objItems []) other
    | _ => parseNumber input
  | fuel + 1, PMode.arrItems acc, input =>
    match parseF fuel PMode.value (skipJsonWs input) with
    | none => none
    | some (v, rest) =>
      match skipJsonWs rest with
      | ',' :: rest2 => parseF fuel (PMode.arrItems (v :: acc)) rest2
      | ']' :: rest2 => some (Json.arr (v :: acc).reverse, rest2)
      | _ => none
  | fuel + 1, PMode.objItems acc, input =>
    match skipJsonWs input with
    | '"' :: rest =>
      match parseStringChars rest with
      | none => none
      | some (kcs, rest2) =>
        match skipJsonWs rest2 with
        | ':' :: rest3 =>
          match parseF fuel PMode.value (skipJsonWs rest3) with
          | none => none
          | some (v, rest4) =>
            match skipJsonWs rest4 with
            | ',' :: rest5 => parseF fuel (PMode.objItems (insertField acc (String.mk kcs) v)) rest5
            | '}' :: rest5 => some (Json.obj (insertField acc (String.mk kcs) v), rest5)
            | _ => none
        | _ => none
    | _ => none

/-- Model of the JavaScript builtin `JSON.parse` on a character list: parse one
value surrounded by insignificant whitespace; anything left over, or any
syntax error, is a parse failure (`none`, standing for the thrown
`SyntaxError` that `parseJsonResponse` catches). -/
def jsonParseL (l : List Char) : Option Json :=
  match parseF (2 * l.length + 4) PMode.value (skipJsonWs l) with
  | some (v, rest) => if skipJsonWs rest = [] then some v else none
  | none => none

/-- One left-to-right pass of the JavaScript global replace
`text.replace(/\x60\x60\x60json|\x60\x60\x60/g, '')` from line 37 of
`geminiService.ts`: at each position the alternation first tries the
seven-character marker and then the three-character one; on a match the
matched characters are deleted and scanning resumes after them. -/
def replaceFences : List Char → List Char
  | '\x60' :: '\x60' :: '\x60' :: 'j' :: 's' :: 'o' :: 'n' :: rest => replaceFences rest
  | '\x60' :: '\x60' :: '\x60' :: rest => replaceFences rest
  | c :: rest => c :: replaceFences rest
  | [] => []

/-- Whitespace removed by the JavaScript `String.prototype.trim` (ECMAScript
WhiteSpace and LineTerminator code points). -/
def jsWs (c : Char) : Bool :=
  c = '\t' || c = '\n' || c = Char.ofNat 11 || c = Char.ofNat 12 || c = '\r' ||
  c = ' ' || c = Char.ofNat 160 || c = Char.ofNat 5760 ||
  (decide (8192 ≤ c.toNat) && decide (c.toNat ≤ 8202)) ||
  c = Char.ofNat 8232 || c = Char.ofNat 8233 || c = Char.ofNat 8239 ||
  c = Char.ofNat 8287 || c = Char.ofNat 12288 || c = Char.ofNat 65279

/-- Remove trailing `jsWs` whitespace. -/
def trimRight (l : List Char) : List Char := (l.reverse.dropWhile jsWs).reverse

/-- Model of `String.prototype.trim`: remove leading and trailing whitespace. -/
def jsTrim (l : List Char) : List Char := trimRight (l.dropWhile jsWs)

/-- The normalization of line 37 of `geminiService.ts`:
`response.text.replace(/\x60\x60\x60json|\x60\x60\x60/g, '').trim()`. -/
def normalizeText (text : String) : List Char := jsTrim (replaceFences text.data)

/-- The structural validation condition of line 40 of `geminiService.ts`:
`data && data.sceneDescription && data.imagePrompt &&
Array.isArray(data.choices) && data.choices.length > 0`. -/
def sceneCheck (data : Json) : Bool :=
  truthy data && truthyOpt (getField data "sceneDescription") &&
  truthyOpt (getField data "imagePrompt") && isArr (getField data "choices") &&
  decide (0 < jlen (getField data "choices"))

/-- The response validator `parseJsonResponse` (lines 35-50 of
`geminiService.ts`): normalize the raw text, parse it as JSON, and return the
parsed value unchanged when the structural check passes, `none` otherwise.
The `try`/`catch` turning a `JSON.parse` exception into `null` is the `none`
branch of `jsonParseL`; the `console.error` calls are observability only and
are not modelled. -/
def parseJsonResponse (text : String) : Option Json :=
  match jsonParseL (normalizeText text) with
  | some data => if sceneCheck data then some data else none
  | none => none

/-- The fixed instruction prompt of `generateInitialScene`
(lines 53-60 of `geminiService.ts`), transcribed verbatim. -/
def initialScenePrompt : String :=
  "\n        You are a master storyteller creating a dynamic text adventure game.\n        Generate the very first scene of a fantasy adventure.\n        Describe the scene vividly in about 2-3 paragraphs.\n        Based on the scene, create a detailed, artistic prompt for an image generation model that captures the essence of the scene. This prompt should focus on visual details like lighting, atmosphere, character appearance, and environment.\n        Finally, provide exactly 3 possible actions the player can take next. The actions should be concise, starting with a verb.\n        Your response MUST conform to the provided JSON schema.\n    "

/-- The numbered history blocks
`storyHistory.map((s, i) => \x60Scene ${i+1}:\n${s}\x60)` of line 79,
with `i` the zero-based index so block `i` is headed `Scene i+1`. -/
def sceneBlocks : Nat → List String → List String
  | _, [] => []
  | i, s :: rest => ("Scene " ++ Nat.repr (i + 1) ++ ":\n" ++ s) :: sceneBlocks (i + 1) rest

/-- Model of `Array.prototype.join(sep)`. -/
def joinSep (sep : String) : List String → String
  | [] => ""
  | [s] => s
  | s :: rest => s ++ sep ++ joinSep sep rest

/-- Model of `historyText` of line 79 of `geminiService.ts`: the numbered scene blocks
joined by a dashed separator line. -/
def historyText (storyHistory : List String) : String :=
  joinSep "\n---\n" (sceneBlocks 0 storyHistory)

/-- Text of the continuation prompt template (lines 80-92) before the
`${historyText}` interpolation. -/
def nextPromptA : String :=
  "\n        You are a master storyteller continuing a dynamic text adventure game.\n        Here is the story so far, with each entry being a new scene:\n        "

/-- Text of the continuation prompt template between `${historyText}` and
`${choice}`. -/
def nextPromptB : String := "\n\n        The player just chose to: \""

/-- Text of the continuation prompt template after `${choice}`. -/
def nextPromptC : String :=
  "\"\n\n        Now, do the following:\n        1. Write the next part of the story, describing the outcome of the player\x27s action and the new situation they are in. Describe the scene vividly in 2-3 paragraphs.\n        2. Based on this new scene, create a detailed, artistic prompt for an image generation model. This prompt should focus on visual details like lighting, atmosphere, character appearance, and environment.\n        3. Provide exactly 3 new, concise actions the player can take. The actions must be different from previous choices and relevant to the new scene. Each action should start with a verb.\n        Your response MUST conform to the provided JSON schema.\n    "

/-- The outbound prompt built by `generateNextScene` (lines 80-92): the full
numbered history and the chosen action interpolated into the fixed template. -/
def buildNextScenePrompt (storyHistory : List String) (choice : String) : String :=
  nextPromptA ++ historyText storyHistory ++ nextPromptB ++ choice ++ nextPromptC

/-- Model of `generateInitialScene` (lines 52-76): invoke the external text-generation
call (modelled as the oracle `call` from outbound prompt to response text),
validate, and either return the scene or raise the terminal initial-scene
error.  There is no retry: the oracle is consulted exactly once. -/
def generateInitialScene (call : String → String) : Except String Json :=
  match parseJsonResponse (call initialScenePrompt) with
  | some d => Except.ok d
  | none => Except.error "Failed to generate a valid initial scene from the API."

/-- Model of `generateNextScene` (lines 78-108): build the continuation prompt from the
full history and the chosen action, invoke the external call once, validate,
and either return the scene or raise the terminal next-scene error. -/
def generateNextScene (storyHistory : List String) (choice : String)
    (call : String → String) : Except String Json :=
  match parseJsonResponse (call (buildNextScenePrompt storyHistory choice)) with
  | some d => Except.ok d
  | none => Except.error "Failed to generate a valid next scene from the API."

/-- The `image.imageBytes` payload of one generated image in the external
image-generation response. -/
structure ImageData where
  imageBytes : String

/-- One entry of `response.generatedImages`. -/
structure GeneratedImage where
  image : ImageData

/-- The fixed stylistic preamble prepended to the prompt of the caller by
`generateImage` (line 113). -/
def imagePreamble : String := "masterpiece, high quality, fantasy art, cinematic lighting. "

/-- Model of `generateImage` (lines 110-126): invoke the external image call (modelled
as an oracle from outbound prompt to the optional `generatedImages` list,
`none` standing for an absent field), and return the first image as a
`data:image/jpeg;base64,` URI, or raise the terminal image error when the
response holds no image. -/
def generateImage (call : String → Option (List GeneratedImage))
    (prompt : String) : Except String String :=
  match call (imagePreamble ++ prompt) with
  | some (img :: _) => Except.ok ("data:image/jpeg;base64," ++ img.image.imageBytes)
  | _ => Except.error "Failed to generate image."

/-- Whether the text begins with a three-backtick code-fence marker (the
shorter of the two alternatives of the replace pattern; the longer one begins
with the same three characters). -/
def startsFence : List Char → Bool
  | a :: b :: c :: _ => a == '\x60' && b == '\x60' && c == '\x60'
  | _ => false

/-- Whether the text contains a three-backtick code-fence marker anywhere,
i.e. whether the replace pattern of line 37 can match somewhere in it. -/
def hasFence : List Char → Bool
  | [] => false
  | c :: rest => startsFence (c :: rest) || hasFence rest

/-- Number of leading backticks of the text. -/
def lb : List Char → Nat
  | [] => 0
  | c :: rest => if c == '\x60' then lb rest + 1 else 0

/-- Whether the text begins with the four letters of the `json` tag. -/
def jsonTag : List Char → Bool
  | 'j' :: 's' :: 'o' :: 'n' :: _ => true
  | _ => false



theorem lb_cons (c : Char) (rest : List Char) :
    lb (c :: rest) = if c == '\x60' then lb rest + 1 else 0 := rfl

theorem hasFence_cons (c : Char) (rest : List Char) :
    hasFence (c :: rest) = (startsFence (c :: rest) || hasFence rest) := rfl

theorem startsFence_iff (l : List Char) : startsFence l = true ↔ 3 ≤ lb l := by
  rcases l with _ | ⟨a, _ | ⟨b, _ | ⟨c, r⟩⟩⟩ <;>
    simp [startsFence, lb] <;> split_ifs <;> simp_all

theorem jsonTag_shape (l : List Char) (h : jsonTag l = true) :
    ∃ r, l = 'j' :: 's' :: 'o' :: 'n' :: r := by
  rw [jsonTag.eq_def] at h
  split at h
  · rename_i x tail
    exact ⟨tail, rfl⟩
  · exact absurd h (by simp)

theorem rf_json (rest : List Char) :
    replaceFences ('\x60' :: '\x60' :: '\x60' :: 'j' :: 's' :: 'o' :: 'n' :: rest) =
      replaceFences rest := rfl

theorem rf_fence (rest : List Char) (h : jsonTag rest = false) :
    replaceFences ('\x60' :: '\x60' :: '\x60' :: rest) = replaceFences rest := by
  rw [replaceFences.eq_def]
  split
  · rename_i x r2 heq
    simp at heq
    rw [heq] at h
    simp [jsonTag] at h
  · rename_i x r2 hne heq
    simp at heq
    rw [heq]
  · rename_i x c r2 hne1 hne2 heq
    have h2 := heq.symm
    simp only [List.cons.injEq] at h2
    exact (hne2 rest h2.1 h2.2).elim
  · rename_i x heq
    exact absurd heq (by simp)

theorem rf_cons (a : Char) (rest : List Char) (h : startsFence (a :: rest) = false) :
    replaceFences (a :: rest) = a :: replaceFences rest := by
  rw [replaceFences.eq_def]
  split
  · rename_i x r2 heq
    simp at heq
    obtain ⟨ha, hrest⟩ := heq
    rw [ha, hrest] at h
    simp [startsFence] at h
  · rename_i x r2 hne heq
    simp at heq
    obtain ⟨ha, hrest⟩ := heq
    rw [ha, hrest] at h
    simp [startsFence] at h
  · rename_i x c r2 hne1 hne2 heq
    simp only [List.cons.injEq] at heq
    rw [heq.1, heq.2]
  · rename_i x heq
    exact absurd heq (by simp)

theorem rf_main_aux : ∀ (n : Nat) (l : List Char), l.length ≤ n →
    lb (replaceFences l) ≤ lb l ∧ lb (replaceFences l) ≤ 2 ∧
      hasFence (replaceFences l) = false := by
  intro n
  induction n with
  | zero =>
    intro l hl
    have h0 : l = [] := List.eq_nil_of_length_eq_zero (Nat.le_zero.mp hl)
    subst h0
    exact ⟨le_rfl, by decide, rfl⟩
  | succ n ih =>
    intro l hl
    rcases l with _ | ⟨a, rest⟩
    · exact ⟨le_rfl, by decide, rfl⟩
    by_cases hs : startsFence (a :: rest) = true
    · rcases rest with _ | ⟨b, _ | ⟨c, r2⟩⟩
      · simp [startsFence] at hs
      · simp [startsFence] at hs
      · rw [show startsFence (a :: b :: c :: r2) =
            (a == '\x60' && b == '\x60' && c == '\x60') from rfl] at hs
        simp only [Bool.and_eq_true, beq_iff_eq] at hs
        obtain ⟨⟨ha, hb⟩, hc⟩ := hs
        subst ha; subst hb; subst hc
        by_cases hj : jsonTag r2 = true
        · obtain ⟨r3, hr3⟩ := jsonTag_shape r2 hj
          subst hr3
          rw [rf_json]
          have hlen : r3.length ≤ n := by simp at hl; omega
          have IH := ih r3 hlen
          refine ⟨?_, IH.2.1, IH.2.2⟩
          have hlb : lb ('\x60' :: '\x60' :: '\x60' :: 'j' :: 's' :: 'o' :: 'n' :: r3) = 3 := rfl
          have h21 := IH.2.1
          omega
        · have hj' : jsonTag r2 = false := by simpa using hj
          rw [rf_fence r2 hj']
          have hlen : r2.length ≤ n := by simp at hl; omega
          have IH := ih r2 hlen
          refine ⟨?_, IH.2.1, IH.2.2⟩
          have hlb : lb ('\x60' :: '\x60' :: '\x60' :: r2) = lb r2 + 3 := rfl
          have h21 := IH.2.1
          omega
    · have hs' : startsFence (a :: rest) = false := by simpa using hs
      rw [rf_cons a rest hs']
      have hlen : rest.length ≤ n := by simp at hl; omega
      have IH := ih rest hlen
      by_cases ha : a = '\x60'
      · subst ha
        have hlb1 : lb ('\x60' :: replaceFences rest) = lb (replaceFences rest) + 1 := rfl
        have hlb2 : lb ('\x60' :: rest) = lb rest + 1 := rfl
        have hrest2 : lb rest ≤ 1 := by
          by_contra hgt
          push_neg at hgt
          have h3 : 3 ≤ lb ('\x60' :: rest) := by rw [hlb2]; omega
          have hsf := (startsFence_iff _).mpr h3
          rw [hsf] at hs'
          exact absurd hs' (by simp)
        have h1 := IH.1
        have h21 := IH.2.1
        refine ⟨by omega, by omega, ?_⟩
        rw [hasFence_cons]
        have hsf : startsFence ('\x60' :: replaceFences rest) = false := by
          by_contra hsf
          have hsf' : startsFence ('\x60' :: replaceFences rest) = true := by simpa using hsf
          have h3 := (startsFence_iff _).mp hsf'
          rw [hlb1] at h3
          omega
        simp [hsf, IH.2.2]
      · have hlb1 : lb (a :: replaceFences rest) = 0 := by
          rw [lb_cons]
          simp [ha]
        have hlb2 : lb (a :: rest) = 0 := by
          rw [lb_cons]
          simp [ha]
        refine ⟨by omega, by omega, ?_⟩
        rw [hasFence_cons]
        have hsf : startsFence (a :: replaceFences rest) = false := by
          by_contra hsf
          have hsf' : startsFence (a :: replaceFences rest) = true := by simpa using hsf
          have h3 := (startsFence_iff _).mp hsf'
          rw [hlb1] at h3
          omega
        simp [hsf, IH.2.2]

theorem rf_noFence (l : List Char) : hasFence (replaceFences l) = false :=
  (rf_main_aux l.length l le_rfl).2.2

theorem rf_noop_aux : ∀ (n : Nat) (l : List Char), l.length ≤ n →
    hasFence l = false → replaceFences l = l := by
  intro n
  induction n with
  | zero =>
    intro l hl _
    have h0 : l = [] := List.eq_nil_of_length_eq_zero (Nat.le_zero.mp hl)
    subst h0
    rfl
  | succ n ih =>
    intro l hl hf
    rcases l with _ | ⟨a, rest⟩
    · rfl
    rw [hasFence_cons] at hf
    have hsf : startsFence (a :: rest) = false := by
      rcases Bool.or_eq_false_iff.mp hf with ⟨h1, _⟩
      exact h1
    have hrest : hasFence rest = false := (Bool.or_eq_false_iff.mp hf).2
    rw [rf_cons a rest hsf]
    have hlen : rest.length ≤ n := by simp at hl; omega
    rw [ih rest hlen hrest]

theorem rf_idem (l : List Char) : replaceFences (replaceFences l) = replaceFences l :=
  rf_noop_aux (replaceFences l).length (replaceFences l) le_rfl (rf_noFence l)

theorem startsFence_append (l t : List Char) (h : startsFence l = true) :
    startsFence (l ++ t) = true := by
  rcases l with _ | ⟨a, _ | ⟨b, _ | ⟨c, r⟩⟩⟩ <;> simp [startsFence] at h ⊢
  exact h

theorem hasFence_tail (c : Char) (rest : List Char) (h : hasFence rest = true) :
    hasFence (c :: rest) = true := by
  rw [hasFence_cons, h, Bool.or_true]

theorem hasFence_append_left (pre suf : List Char) (h : hasFence pre = true) :
    hasFence (pre ++ suf) = true := by
  induction pre with
  | nil => simp [hasFence] at h
  | cons a rest ih =>
    rw [hasFence_cons] at h
    rcases Bool.or_eq_true_iff.mp h with hs | hr
    · have hsa := startsFence_append (a :: rest) suf hs
      rw [List.cons_append] at hsa
      rw [List.cons_append, hasFence_cons, hsa, Bool.true_or]
    · rw [List.cons_append]
      exact hasFence_tail _ _ (ih hr)

theorem hasFence_append_right (pre suf : List Char) (h : hasFence suf = true) :
    hasFence (pre ++ suf) = true := by
  induction pre with
  | nil => simpa using h
  | cons a rest ih =>
    rw [List.cons_append]
    exact hasFence_tail _ _ ih

theorem dropWhile_decomp (p : Char → Bool) (l : List Char) :
    ∃ pre, pre ++ l.dropWhile p = l := by
  induction l with
  | nil => exact ⟨[], rfl⟩
  | cons a rest ih =>
    by_cases hp : p a = true
    · obtain ⟨pre, hpre⟩ := ih
      refine ⟨a :: pre, ?_⟩
      rw [List.dropWhile_cons]
      simp only [hp, if_true, List.cons_append, hpre]
    · refine ⟨[], ?_⟩
      rw [List.dropWhile_cons]
      simp [hp]

theorem hasFence_dropWhile (p : Char → Bool) (l : List Char) (h : hasFence l = false) :
    hasFence (l.dropWhile p) = false := by
  by_contra hc
  have hc' : hasFence (l.dropWhile p) = true := by simpa using hc
  obtain ⟨pre, hpre⟩ := dropWhile_decomp p l
  have hall := hasFence_append_right pre _ hc'
  rw [hpre] at hall
  rw [hall] at h
  exact absurd h (by simp)

theorem trimRight_decomp (l : List Char) : ∃ suf, trimRight l ++ suf = l := by
  obtain ⟨pre, hpre⟩ := dropWhile_decomp jsWs l.reverse
  refine ⟨pre.reverse, ?_⟩
  unfold trimRight
  have hrev := congrArg List.reverse hpre
  rw [List.reverse_append, List.reverse_reverse] at hrev
  exact hrev

theorem hasFence_trimRight (l : List Char) (h : hasFence l = false) :
    hasFence (trimRight l) = false := by
  by_contra hc
  have hc' : hasFence (trimRight l) = true := by simpa using hc
  obtain ⟨suf, hsuf⟩ := trimRight_decomp l
  have hall := hasFence_append_left _ suf hc'
  rw [hsuf] at hall
  rw [hall] at h
  exact absurd h (by simp)

theorem hasFence_jsTrim (l : List Char) (h : hasFence l = false) :
    hasFence (jsTrim l) = false :=
  hasFence_trimRight _ (hasFence_dropWhile _ _ h)

theorem joinSep_cons_cons (sep a b : String) (r : List String) :
    joinSep sep (a :: b :: r) = a ++ sep ++ joinSep sep (b :: r) := rfl

theorem mem_joinSep_sub (sep : String) :
    ∀ (l : List String) (s : String), s ∈ l → s.data <:+: (joinSep sep l).data := by
  intro l
  induction l with
  | nil =>
    intro s hs
    simp at hs
  | cons a rest ih =>
    intro s hs
    rcases List.mem_cons.mp hs with h | h
    · subst h
      rcases rest with _ | ⟨b, r⟩
      · exact ⟨[], [], by simp [joinSep]⟩
      · rw [joinSep_cons_cons]
        refine ⟨[], (sep ++ joinSep sep (b :: r)).data, ?_⟩
        simp [String.data_append, List.append_assoc]
    · rcases rest with _ | ⟨b, r⟩
      · simp at h
      · rw [joinSep_cons_cons]
        have h1 := ih s h
        have h2 : (joinSep sep (b :: r)).data <:+:
            (a ++ sep ++ joinSep sep (b :: r)).data :=
          ⟨(a ++ sep).data, [], by simp [String.data_append]⟩
        exact h1.trans h2

theorem sceneBlocks_mem : ∀ (h : List String) (n i : Nat) (hi : i < h.length),
    ("Scene " ++ Nat.repr (n + i + 1) ++ ":\n" ++ h.get ⟨i, hi⟩) ∈ sceneBlocks n h := by
  intro h
  induction h with
  | nil =>
    intro n i hi
    simp at hi
  | cons a rest ih =>
    intro n i hi
    cases i with
    | zero =>
      exact List.mem_cons_self _ _
    | succ j =>
      have hj : j < rest.length := by simpa using hi
      have hmem := ih (n + 1) j hj
      have harith : n + (j + 1) + 1 = n + 1 + j + 1 := by omega
      rw [harith]
      exact List.mem_cons_of_mem _ hmem

/-- C1: any input text that, after fence-stripping, parses as JSON to a value
with a non-empty `sceneDescription` string, a non-empty `imagePrompt` string
and a `choices` array of length at least one is accepted by the validator,
which returns exactly the parsed value (hence those three fields unmodified). -/
theorem validator_accepts_valid_scene (text : String) (v : Json) (d ip : String)
    (cs : List Json)
    (hparse : jsonParseL (normalizeText text) = some v)
    (hd : getField v "sceneDescription" = some (Json.str d)) (hd0 : d ≠ "")
    (hip : getField v "imagePrompt" = some (Json.str ip)) (hip0 : ip ≠ "")
    (hcs : getField v "choices" = some (Json.arr cs)) (hcs0 : cs ≠ []) :
    parseJsonResponse text = some v := by
  have htr : truthy v = true := by
    cases v <;> simp [getField] at hd
    rfl
  have hchk : sceneCheck v = true := by
    unfold sceneCheck
    rw [hd, hip, hcs]
    have h1 : truthy (Json.str d) = true := by simp [truthy, hd0]
    have h2 : truthy (Json.str ip) = true := by simp [truthy, hip0]
    simp [truthyOpt, isArr, jlen, htr, h1, h2]
    exact List.length_pos.mpr hcs0
  unfold parseJsonResponse
  rw [hparse]
  simp [hchk]

theorem validator_accepts_valid_scene_w :
    parseJsonResponse "\x7b\"sceneDescription\":\"A\",\"imagePrompt\":\"B\",\"choices\":[\"Go north\"]\x7d" =
      some (Json.obj [("sceneDescription", Json.str "A"), ("imagePrompt", Json.str "B"),
        ("choices", Json.arr [Json.str "Go north"])]) :=
  validator_accepts_valid_scene _
    (Json.obj [("sceneDescription", Json.str "A"), ("imagePrompt", Json.str "B"),
      ("choices", Json.arr [Json.str "Go north"])])
    "A" "B" [Json.str "Go north"] rfl rfl (by decide) rfl (by decide) rfl (by simp)

/-- C2 counterexample: the input text whose only code-fence marker is interior
(between `a` and `b`) still loses that marker under the normalization of line
37, so interior markers are not left in place. -/
theorem normalization_removes_interior_fence_cx :
    hasFence "a```b".data = true ∧ normalizeText "a```b" = "ab".data ∧
      hasFence "ab".data = false :=
  ⟨rfl, rfl, rfl⟩

/-- C2 (amended): the replace step of the normalization is global, removing every
occurrence of the code-fence markers, whether leading, trailing or interior,
and the subsequent trim removes surrounding whitespace; no fence marker
survives normalization. -/
theorem normalization_removes_all_fence_markers (text : String) :
    hasFence (normalizeText text) = false :=
  hasFence_jsTrim _ (rf_noFence text.data)

/-- C3: whenever the normalized text fails to parse as JSON, the validator
returns the absence sentinel `none`.  The embedding is a total function into
`Option`, mirroring that `parseJsonResponse` catches the `JSON.parse`
exception and never itself throws. -/
theorem validator_absence_on_parse_failure (text : String)
    (h : jsonParseL (normalizeText text) = none) : parseJsonResponse text = none := by
  unfold parseJsonResponse
  rw [h]

theorem validator_absence_on_parse_failure_w : parseJsonResponse "not json" = none :=
  validator_absence_on_parse_failure "not json" rfl

/-- C4: whenever the normalized text parses as JSON but the parsed value lacks
one of the fields `sceneDescription`, `imagePrompt` or `choices`, or its
`choices` is the empty array, the validator returns the absence sentinel. -/
theorem validator_absence_on_missing_fields (text : String) (v : Json)
    (hparse : jsonParseL (normalizeText text) = some v)
    (hmiss : getField v "sceneDescription" = none ∨ getField v "imagePrompt" = none ∨
      getField v "choices" = none ∨ getField v "choices" = some (Json.arr [])) :
    parseJsonResponse text = none := by
  have hchk : sceneCheck v = false := by
    unfold sceneCheck
    rcases hmiss with h | h | h | h <;> rw [h] <;> simp [truthyOpt, isArr, jlen]
  unfold parseJsonResponse
  rw [hparse]
  simp [hchk]

theorem validator_absence_on_missing_fields_w :
    parseJsonResponse "\x7b\"sceneDescription\":\"A\",\"imagePrompt\":\"B\",\"choices\":[]\x7d" = none :=
  validator_absence_on_missing_fields _
    (Json.obj [("sceneDescription", Json.str "A"), ("imagePrompt", Json.str "B"),
      ("choices", Json.arr [])])
    rfl (Or.inr (Or.inr (Or.inr rfl)))

/-- C5: fence-stripping (the replace step of line 37) is a no-op on texts that
contain no code-fence marker, and is idempotent on every text. -/
theorem fence_stripping_idempotent (s : String) :
    (hasFence s.data = false → replaceFences s.data = s.data) ∧
      replaceFences (replaceFences s.data) = replaceFences s.data :=
  ⟨fun h => rf_noop_aux s.data.length s.data le_rfl h, rf_idem s.data⟩

theorem fence_stripping_idempotent_w :
    replaceFences "abc".data = "abc".data ∧
      replaceFences (replaceFences "a``b".data) = replaceFences "a``b".data :=
  ⟨(fence_stripping_idempotent "abc").1 rfl, (fence_stripping_idempotent "a``b").2⟩

/-- C6: whenever the validator reports absence on the response of the external call,
`generateInitialScene` and `generateNextScene` raise their terminal
errors, whose distinct messages identify the failing phase (initial scene vs
next scene); whenever the validator succeeds they return the validated record.
Each wrapper consults its oracle exactly once (no retry) and returns either
the full record or an error (no partial result). -/
theorem scene_wrappers_terminal_error_policy (call : String → String)
    (storyHistory : List String) (choice : String) :
    (parseJsonResponse (call initialScenePrompt) = none →
      generateInitialScene call =
        Except.error "Failed to generate a valid initial scene from the API.") ∧
    (∀ v, parseJsonResponse (call initialScenePrompt) = some v →
      generateInitialScene call = Except.ok v) ∧
    (parseJsonResponse (call (buildNextScenePrompt storyHistory choice)) = none →
      generateNextScene storyHistory choice call =
        Except.error "Failed to generate a valid next scene from the API.") ∧
    (∀ v, parseJsonResponse (call (buildNextScenePrompt storyHistory choice)) = some v →
      generateNextScene storyHistory choice call = Except.ok v) ∧
    ("Failed to generate a valid initial scene from the API." ≠
      "Failed to generate a valid next scene from the API.") := by
  refine ⟨?_, ?_, ?_, ?_, by decide⟩
  · intro h
    unfold generateInitialScene
    rw [h]
  · intro v h
    unfold generateInitialScene
    rw [h]
  · intro h
    unfold generateNextScene
    rw [h]
  · intro v h
    unfold generateNextScene
    rw [h]

theorem scene_wrappers_terminal_error_policy_w :
    generateInitialScene (fun _ => "oops") =
        Except.error "Failed to generate a valid initial scene from the API." ∧
      generateNextScene [] "Open the door" (fun _ => "oops") =
        Except.error "Failed to generate a valid next scene from the API." :=
  ⟨(scene_wrappers_terminal_error_policy (fun _ => "oops") [] "Open the door").1 rfl,
    (scene_wrappers_terminal_error_policy (fun _ => "oops") [] "Open the door").2.2.1 rfl⟩

/-- C7: `generateImage` raises its terminal error exactly when the response
of the external call holds no generated image (absent or empty `generatedImages`);
otherwise it returns the bytes of the first image as a `data:image/jpeg;base64,`
data URI. -/
theorem generate_image_data_uri_or_error (call : String → Option (List GeneratedImage))
    (p : String) :
    (generateImage call p = Except.error "Failed to generate image." ↔
      (call (imagePreamble ++ p) = none ∨ call (imagePreamble ++ p) = some [])) ∧
    (∀ (img : GeneratedImage) (rest : List GeneratedImage),
      call (imagePreamble ++ p) = some (img :: rest) →
      generateImage call p = Except.ok ("data:image/jpeg;base64," ++ img.image.imageBytes)) := by
  constructor
  · unfold generateImage
    rcases hc : call (imagePreamble ++ p) with _ | ⟨_ | ⟨img, rest⟩⟩ <;> simp [hc]
  · intro img rest hc
    unfold generateImage
    rw [hc]

theorem generate_image_data_uri_or_error_w :
    generateImage (fun _ => some [⟨⟨"Zm9v"⟩⟩]) "a castle" =
      Except.ok "data:image/jpeg;base64,Zm9v" :=
  (generate_image_data_uri_or_error (fun _ => some [⟨⟨"Zm9v"⟩⟩]) "a castle").2 ⟨⟨"Zm9v"⟩⟩ [] rfl

/-- C8: the continuation prompt embeds the full history with entry `i`
(zero-based) rendered under the heading `Scene i+1`, embeds the chosen action of the player, performs no truncation (the whole numbered history text is an
infix of the outbound prompt), and with an empty history the history block is
empty. -/
theorem next_scene_prompt_embeds_full_history (storyHistory : List String) (choice : String) :
    (∀ i, (hi : i < storyHistory.length) →
      ("Scene " ++ Nat.repr (i + 1) ++ ":\n" ++ storyHistory.get ⟨i, hi⟩).data <:+:
        (buildNextScenePrompt storyHistory choice).data) ∧
    (historyText storyHistory).data <:+: (buildNextScenePrompt storyHistory choice).data ∧
    choice.data <:+: (buildNextScenePrompt storyHistory choice).data ∧
    historyText [] = "" := by
  have hmain : (historyText storyHistory).data <:+:
      (buildNextScenePrompt storyHistory choice).data := by
    unfold buildNextScenePrompt
    refine ⟨nextPromptA.data, (nextPromptB ++ choice ++ nextPromptC).data, ?_⟩
    simp [String.data_append, List.append_assoc]
  refine ⟨?_, hmain, ?_, rfl⟩
  · intro i hi
    have hb := sceneBlocks_mem storyHistory 0 i hi
    rw [Nat.zero_add] at hb
    exact (mem_joinSep_sub "\n---\n" (sceneBlocks 0 storyHistory) _ hb).trans hmain
  · unfold buildNextScenePrompt
    refine ⟨(nextPromptA ++ historyText storyHistory ++ nextPromptB).data, nextPromptC.data, ?_⟩
    simp [String.data_append, List.append_assoc]

theorem next_scene_prompt_embeds_full_history_w :
    ("Scene 1:\nThe hall").data <:+:
      (buildNextScenePrompt ["The hall"] "Open the door").data :=
  (next_scene_prompt_embeds_full_history ["The hall"] "Open the door").1 0 (by decide)

/-- C9: scenario A: the fenced, valid payload is accepted and the validator
returns exactly the parsed record. -/
theorem scenario_a_fenced_valid_json_accepted :
    parseJsonResponse "```json\n\x7b\"sceneDescription\":\"A\",\"imagePrompt\":\"B\",\"choices\":[\"Go north\"]\x7d\n```" =
      some (Json.obj [("sceneDescription", Json.str "A"), ("imagePrompt", Json.str "B"),
        ("choices", Json.arr [Json.str "Go north"])]) := rfl

/-- C10: the validator checks no field types: a truthy number as
`sceneDescription`, a boolean as `imagePrompt` and numbers as `choices`
elements are accepted, and an extra field is retained in the returned value. -/
theorem validator_skips_field_type_checks :
    parseJsonResponse "\x7b\"sceneDescription\":5,\"imagePrompt\":true,\"choices\":[1,2],\"extra\":\"x\"\x7d" =
      some (Json.obj [("sceneDescription", Json.num 5 0), ("imagePrompt", Json.bool true),
        ("choices", Json.arr [Json.num 1 0, Json.num 2 0]), ("extra", Json.str "x")]) := rfl

end GeminiService
